import Mathlib

/-!
Verification of the ServiLocal marketplace server against its
natural-language specification.  The TypeScript modules relevant to the
claims (`server/cache.ts`, `server/payments.ts`, `server/twoFactorAuth.ts`,
`server/auth.ts`, `server/storage.ts`, the Express route registration file
and the WebSocket manager) are shallowly embedded below: pure functions
become Lean functions, the database and the in-memory maps become explicit
state values threaded through the operations, and thrown exceptions become
`Except` values.  Machine integers are modelled as `Int`/`Nat`; none of the
verified paths can overflow a 64-bit double's integer range on the inputs
considered.
-/

namespace ServiLocal

/-! ## String containment (JavaScript `String.prototype.includes`)

`cache.ts` filters keys with `key.includes(pattern)`.  We embed `includes`
as substring search over the character lists of the two strings. -/

/-- `hasPre s p` is true when `p` is an initial segment of `s`
(helper for substring search, mirroring the character-by-character
comparison JavaScript performs). -/
def hasPre : List Char → List Char → Bool
  | _, [] => true
  | [], _ :: _ => false
  | a :: as, b :: bs => a == b && hasPre as bs

/-- `hasSub s p` is true when `p` occurs contiguously inside `s`. -/
def hasSub : List Char → List Char → Bool
  | [], p => hasPre [] p
  | a :: s, p => hasPre (a :: s) p || hasSub s p

/-- Embedding of JavaScript `s.includes(p)`. -/
def strIncludes (s p : String) : Bool := hasSub s.data p.data

theorem hasPre_iff : ∀ s p : List Char, hasPre s p = true ↔ ∃ r, s = p ++ r
  | s, [] => by simp [hasPre]
  | [], _ :: _ => by simp [hasPre]
  | a :: as, b :: bs => by
    simp only [hasPre, Bool.and_eq_true, beq_iff_eq, hasPre_iff as bs,
      List.cons_append, List.cons.injEq]
    constructor
    · rintro ⟨rfl, r, rfl⟩
      exact ⟨r, rfl, rfl⟩
    · rintro ⟨r, rfl, rfl⟩
      exact ⟨rfl, r, rfl⟩

theorem hasSub_iff : ∀ s p : List Char, hasSub s p = true ↔ ∃ l r, s = l ++ p ++ r
  | [], p => by
    cases p with
    | nil => exact ⟨fun _ => ⟨[], [], rfl⟩, fun _ => rfl⟩
    | cons b bs =>
      constructor
      · intro h
        exact absurd h (by simp [hasSub, hasPre])
      · rintro ⟨l, r, h⟩
        cases l <;> simp_all
  | a :: s, p => by
    rw [hasSub, Bool.or_eq_true, hasPre_iff, hasSub_iff s p]
    constructor
    · rintro (⟨r, h⟩ | ⟨l, r, h⟩)
      · exact ⟨[], r, by simpa using h⟩
      · exact ⟨a :: l, r, by simp [h]⟩
    · rintro ⟨l, r, h⟩
      cases l with
      | nil => exact Or.inl ⟨r, by simpa using h⟩
      | cons x l =>
        simp only [List.cons_append, List.cons.injEq] at h
        exact Or.inr ⟨l, r, h.2⟩

/-! ## `server/cache.ts`: the TTL cache and `invalidatePattern`

The NodeCache instance is modelled as a list of entries, each carrying the
key, the stored value and the TTL it was set with.  `invalidatePattern`
reads all keys, keeps those whose key contains the pattern and deletes
them (`this.cache.del(matchingKeys)`); the entries that remain are exactly
the ones whose key does not contain the pattern, untouched. -/

namespace Cache

/-- One entry of the NodeCache store: key, value and the TTL (seconds)
recorded when the entry was set. -/
structure Entry where
  key : String
  value : Nat
  ttl : Nat
  deriving DecidableEq, Repr

/-- Embedding of `CacheManager.invalidatePattern`: collect the keys that
contain `pattern` as a substring and delete them from the store.  The
net effect on the key-value map is keeping every entry whose key does not
contain the pattern. -/
def invalidatePattern (pattern : String) (store : List Entry) : List Entry :=
  store.filter (fun e => !(strIncludes e.key pattern))

end Cache

/-- C5: `invalidatePattern p` deletes exactly the entries whose key contains
`p` as a contiguous substring, and every entry whose key does not contain
`p` survives unchanged — same key, value and TTL, since the entry itself is
kept — and no entry is reordered, duplicated or invented
(the result is a sublist of the original store). -/
theorem C5_invalidatePattern_exact (p : String) (store : List Cache.Entry) :
    (∀ e : Cache.Entry, e ∈ Cache.invalidatePattern p store ↔
      e ∈ store ∧ ¬ ∃ l r, e.key.data = l ++ p.data ++ r)
    ∧ (Cache.invalidatePattern p store).Sublist store := by
  constructor
  · intro e
    rw [Cache.invalidatePattern, List.mem_filter]
    have h := hasSub_iff e.key.data p.data
    constructor
    · rintro ⟨hm, hf⟩
      refine ⟨hm, fun hex => ?_⟩
      rw [Bool.not_eq_true', Bool.eq_false_iff] at hf
      exact hf (by rw [strIncludes]; exact h.2 hex)
    · rintro ⟨hm, hex⟩
      refine ⟨hm, ?_⟩
      rw [Bool.not_eq_true', Bool.eq_false_iff]
      intro hc
      exact hex (h.1 hc)
  · exact List.filter_sublist _

/-! ## `server/payments.ts`: the PSE payment stub

`createPSEPayment` validates the amount and the document type, then writes
one pending record through `storage.createPaymentRecord` and returns a
`PaymentIntent`.  The Stripe client is never touched on this path; the
embedding records every call to an external payment provider in an
explicit `externalCalls` list so that their absence is provable. -/

namespace Payments

/-- Input of `createPSEPayment` (`PSEPayment` in `payments.ts`).  The
document type is a runtime string; TypeScript narrows it to
`'CC' | 'CE' | 'NIT'` but the function re-checks it dynamically. -/
structure PSEPayment where
  bank : String
  documentType : String
  documentNumber : String
  amount : Int
  description : String
  deriving DecidableEq, Repr

/-- The `PaymentIntent` result shape of `payments.ts`. -/
structure PaymentIntent where
  id : String
  amount : Int
  currency : String
  status : String
  paymentMethod : String
  deriving DecidableEq, Repr

/-- A stored payment row, as passed to `storage.createPaymentRecord`. -/
structure PaymentRecord where
  id : String
  amount : Int
  currency : String
  status : String
  paymentMethod : String
  bank : String
  documentType : String
  documentNumber : String
  description : String
  deriving DecidableEq, Repr

/-- Modelled from the spec: `storage.createPaymentRecord` is called by
`payments.ts` but is not defined in any source file of the repository;
per the spec the PSE integration "is a stub that writes a pending
record", so the missing storage method is modelled as appending the
given record to the payment table. -/
def createPaymentRecord (r : PaymentRecord) (store : List PaymentRecord) :
    List PaymentRecord :=
  store ++ [r]

/-- Embedding of `createPSEPayment`.  `paymentId` stands for the
`pse_${Date.now()}_${random}` string computed at entry.  The result is the
thrown error or the returned intent, together with the payment table after
the call and the list of external payment-provider calls made (always
empty on this code path: the function never touches the Stripe client). -/
def createPSEPayment (paymentId : String) (payment : PSEPayment)
    (store : List PaymentRecord) :
    Except String PaymentIntent × List PaymentRecord × List String :=
  if payment.amount < 5000 then
    (.error "Monto mínimo para PSE es $5,000 COP", store, [])
  else if !(["CC", "CE", "NIT"].contains payment.documentType) then
    (.error "Tipo de documento inválido", store, [])
  else
    let r : PaymentRecord :=
      { id := paymentId
        amount := payment.amount
        currency := "COP"
        status := "pending"
        paymentMethod := "pse"
        bank := payment.bank
        documentType := payment.documentType
        documentNumber := payment.documentNumber
        description := payment.description }
    (.ok { id := paymentId
           amount := payment.amount
           currency := "COP"
           status := "pending"
           paymentMethod := "pse" },
     createPaymentRecord r store, [])

end Payments

/-- C4: for every PSE input with amount at least 5000 and document type in
{CC, CE, NIT}, `createPSEPayment` succeeds, appends exactly one record to
the payment table and returns an intent; record and intent both carry
status `pending`, currency `COP`, method `pse` and the input amount, and
no external payment-provider call is made. -/
theorem C4_createPSEPayment_success (paymentId : String)
    (p : Payments.PSEPayment) (store : List Payments.PaymentRecord)
    (hamt : 5000 ≤ p.amount)
    (hdoc : p.documentType = "CC" ∨ p.documentType = "CE" ∨ p.documentType = "NIT") :
    ∃ intent r,
      Payments.createPSEPayment paymentId p store = (.ok intent, store ++ [r], [])
      ∧ intent.status = "pending" ∧ intent.currency = "COP"
      ∧ intent.paymentMethod = "pse" ∧ intent.amount = p.amount
      ∧ r.status = "pending" ∧ r.currency = "COP"
      ∧ r.paymentMethod = "pse" ∧ r.amount = p.amount := by
  have h1 : ¬ p.amount < 5000 := not_lt.2 hamt
  have h2 : (["CC", "CE", "NIT"].contains p.documentType) = true := by
    rcases hdoc with h | h | h <;> simp [List.contains, h]
  rw [Payments.createPSEPayment]
  rw [if_neg h1, h2]
  exact ⟨_, _, rfl, rfl, rfl, rfl, rfl, rfl, rfl, rfl, rfl⟩

/-- Witness for C4 at a concrete valid PSE payment. -/
theorem C4_createPSEPayment_success_witness :
    ∃ intent r,
      Payments.createPSEPayment "pse_1_x"
        { bank := "Bancolombia", documentType := "CC",
          documentNumber := "123", amount := 10000, description := "d" } []
        = (.ok intent, [] ++ [r], [])
      ∧ intent.status = "pending" ∧ intent.currency = "COP"
      ∧ intent.paymentMethod = "pse" ∧ intent.amount = 10000
      ∧ r.status = "pending" ∧ r.currency = "COP"
      ∧ r.paymentMethod = "pse" ∧ r.amount = 10000 :=
  C4_createPSEPayment_success "pse_1_x"
    { bank := "Bancolombia", documentType := "CC",
      documentNumber := "123", amount := 10000, description := "d" } []
    (by decide) (Or.inl rfl)

/-- C8: `createPSEPayment` throws exactly when the amount is below 5000 or
the document type is not one of CC, CE, NIT, and whenever it throws the
payment table is unchanged. -/
theorem C8_createPSEPayment_error_iff (paymentId : String)
    (p : Payments.PSEPayment) (store : List Payments.PaymentRecord) :
    ((Payments.createPSEPayment paymentId p store).1.isOk = false ↔
      p.amount < 5000 ∨
        ¬ (p.documentType = "CC" ∨ p.documentType = "CE" ∨ p.documentType = "NIT"))
    ∧ ((Payments.createPSEPayment paymentId p store).1.isOk = false →
        (Payments.createPSEPayment paymentId p store).2.1 = store) := by
  rw [Payments.createPSEPayment]
  by_cases h1 : p.amount < 5000
  · simp [h1, Except.isOk, Except.toBool]
  · by_cases h2 : p.documentType = "CC" ∨ p.documentType = "CE" ∨ p.documentType = "NIT"
    · have hc : (["CC", "CE", "NIT"].contains p.documentType) = true := by
        rcases h2 with h | h | h <;> simp [List.contains, h]
      simp [h1, hc, Except.isOk, Except.toBool, h2]
    · have hc : (["CC", "CE", "NIT"].contains p.documentType) = false := by
        simp only [List.contains, List.elem_eq_mem, List.mem_cons, List.not_mem_nil,
          or_false, decide_eq_false_iff_not]
        exact h2
      simp [h1, hc, Except.isOk, Except.toBool, h2]

/-- Witness for C8: the conjunct with a hypothesis, applied at a rejected
input (amount 100 < 5000) where the table is indeed unchanged. -/
theorem C8_createPSEPayment_error_iff_witness :
    (Payments.createPSEPayment "pse_2_y"
      { bank := "b", documentType := "CC", documentNumber := "1",
        amount := 100, description := "d" } []).2.1 = [] :=
  (C8_createPSEPayment_error_iff "pse_2_y"
    { bank := "b", documentType := "CC", documentNumber := "1",
      amount := 100, description := "d" } []).2 (by decide)

/-! ## `server/twoFactorAuth.ts`: 2FA login validation

The per-user two-factor records live behind `storage.getUserTwoFactor` /
`storage.removeUsedBackupCode`, which are not defined in any source file;
they are modelled as an association list from user id to the record shape
the module stores (`secret`, `backupCodes`, `isActive`).  TOTP
verification is a call into the speakeasy library, embedded as an
uninterpreted oracle parameter. -/

namespace TwoFactor

/-- The stored two-factor record (the object written by
`saveTempTwoFactorSecret` / `activateTwoFactor`). -/
structure TwoFactorData where
  secret : String
  backupCodes : List String
  isActive : Bool
  deriving DecidableEq, Repr

/-- Modelled from the spec: `storage.getUserTwoFactor` is called by
`twoFactorAuth.ts` but defined nowhere in the repository's sources; the
spec describes the module as a thin wrapper over stored TOTP state, so the
lookup is modelled as an association-list lookup by user id. -/
def getUserTwoFactor (store : List (String × TwoFactorData)) (userId : String) :
    Option TwoFactorData :=
  (store.find? (fun e => e.1 == userId)).map (·.2)

/-- Modelled from the spec: `storage.removeUsedBackupCode` is called by
`twoFactorAuth.ts` but defined nowhere in the repository's sources;
modelled as removing the given code from the user's backup-code list. -/
def removeUsedBackupCode (store : List (String × TwoFactorData))
    (userId code : String) : List (String × TwoFactorData) :=
  store.map (fun e =>
    if e.1 == userId then
      (e.1, { e.2 with backupCodes := e.2.backupCodes.filter (fun c => c != code) })
    else e)

/-- Embedding of `validate2FALogin`.  `totpVerify secret token` stands for
`verify2FAToken` (the speakeasy TOTP check).  Returns the boolean result
together with the two-factor store after the call. -/
def validate2FALogin (totpVerify : String → String → Bool)
    (store : List (String × TwoFactorData)) (userId token : String) :
    Bool × List (String × TwoFactorData) :=
  match getUserTwoFactor store userId with
  | none => (true, store)
  | some d =>
    if !d.isActive then (true, store)
    else if totpVerify d.secret token then (true, store)
    else if d.backupCodes.contains token.toUpper then
      (true, removeUsedBackupCode store userId token.toUpper)
    else (false, store)

end TwoFactor

/-- C9: when the stored two-factor record of a user is absent or not
active, `validate2FALogin` returns true for every token, for every
behaviour of the TOTP verifier (it is never consulted), and the stored
state is returned unchanged. -/
theorem C9_validate2FALogin_inactive
    (totpVerify : String → String → Bool)
    (store : List (String × TwoFactor.TwoFactorData)) (userId token : String)
    (h : TwoFactor.getUserTwoFactor store userId = none ∨
         ∃ d, TwoFactor.getUserTwoFactor store userId = some d ∧ d.isActive = false) :
    TwoFactor.validate2FALogin totpVerify store userId token = (true, store) := by
  rcases h with h | ⟨d, h, hact⟩
  · rw [TwoFactor.validate2FALogin, h]
  · rw [TwoFactor.validate2FALogin, h]
    simp [hact]

/-- Witness for C9: a user with an inactive stored record, an oracle that
rejects everything, and an arbitrary token. -/
theorem C9_validate2FALogin_inactive_witness :
    TwoFactor.validate2FALogin (fun _ _ => false)
      [("7", { secret := "s", backupCodes := ["A1B2C3"], isActive := false })]
      "7" "000000"
    = (true, [("7", { secret := "s", backupCodes := ["A1B2C3"], isActive := false })]) :=
  C9_validate2FALogin_inactive (fun _ _ => false)
    [("7", { secret := "s", backupCodes := ["A1B2C3"], isActive := false })]
    "7" "000000"
    (Or.inr ⟨_, by rfl, rfl⟩)

/-! ## `server/auth.ts` (the 24h/12h variant): JWT issuance and checking

`generateToken` signs `{ userId, version, iat }` with a 24-hour expiry;
`generateRefreshToken` additionally sets `type: 'refresh'` and a 7-day
expiry.  `verifyToken` first performs the library's expiry check
(`jwt.verify` fails once `now` reaches `exp`) and then rejects non-refresh
tokens older than 12 hours.  Timestamps are seconds since the epoch. -/

namespace Auth

/-- The decoded JWT payload of `auth.ts`: `userId`, `version`, the
optional `type` field (present with value `refresh` on refresh tokens)
and the issued-at time in seconds. -/
structure TokenPayload where
  userId : Nat
  version : Nat
  tokType : Option String
  iat : Nat
  deriving DecidableEq, Repr

/-- A signed token: the payload plus the `exp` claim `jwt.sign` derives
from `expiresIn`. -/
structure SignedToken where
  payload : TokenPayload
  exp : Nat
  deriving DecidableEq, Repr

/-- Embedding of `generateToken`: no `type` field, `expiresIn: '24h'`. -/
def generateToken (userId : Nat) (version : Nat := 1) (iat : Nat := 0) :
    SignedToken :=
  { payload := { userId := userId, version := version, tokType := none, iat := iat }
    exp := iat + 24 * 60 * 60 }

/-- Embedding of `generateRefreshToken`: `type: 'refresh'`,
`expiresIn: '7d'`. -/
def generateRefreshToken (userId : Nat) (version : Nat := 1) (iat : Nat := 0) :
    SignedToken :=
  { payload := { userId := userId, version := version, tokType := some "refresh", iat := iat }
    exp := iat + 7 * 24 * 60 * 60 }

/-- Embedding of `verifyToken` at time `now` (seconds).  `jwt.verify`
raises `TokenExpiredError` once `now` reaches the `exp` claim; afterwards
the handler computes `tokenAge = now - iat` and returns null for
non-refresh tokens older than 12 hours. -/
def verifyToken (t : SignedToken) (now : Nat) : Option TokenPayload :=
  if t.exp ≤ now then none
  else if 12 * 60 * 60 < now - t.payload.iat ∧ t.payload.tokType ≠ some "refresh" then
    none
  else some t.payload

end Auth

/-- C10: a token from `generateToken` is rejected by `verifyToken` at
every time more than 12 hours after its issuance — in particular while its
24-hour JWT expiry has not yet passed — while a refresh token from
`generateRefreshToken` is still accepted at any such time inside its
7-day expiry window. -/
theorem C10_token_twelve_hour_cutoff (userId version iat now : Nat) :
    (12 * 60 * 60 < now - iat →
      Auth.verifyToken (Auth.generateToken userId version iat) now = none)
    ∧ (now < iat + 7 * 24 * 60 * 60 →
      Auth.verifyToken (Auth.generateRefreshToken userId version iat) now
        = some (Auth.generateRefreshToken userId version iat).payload) := by
  constructor
  · intro hage
    rw [Auth.verifyToken]
    by_cases hexp : (Auth.generateToken userId version iat).exp ≤ now
    · rw [if_pos hexp]
    · rw [if_neg hexp, if_pos]
      exact ⟨hage, by simp [Auth.generateToken]⟩
  · intro hexp
    rw [Auth.verifyToken]
    rw [if_neg (by simpa [Auth.generateRefreshToken] using not_le.2 hexp), if_neg]
    simp [Auth.generateRefreshToken]

/-- Witness for C10: issued at time 0, checked at 50000 s (between the
12-hour cutoff 43200 s and the 24-hour expiry 86400 s): the plain token
is rejected while the refresh token is still accepted. -/
theorem C10_token_twelve_hour_cutoff_witness :
    Auth.verifyToken (Auth.generateToken 1 1 0) 50000 = none
    ∧ Auth.verifyToken (Auth.generateRefreshToken 1 1 0) 50000
        = some (Auth.generateRefreshToken 1 1 0).payload :=
  ⟨(C10_token_twelve_hour_cutoff 1 1 0 50000).1 (by decide),
   (C10_token_twelve_hour_cutoff 1 1 0 50000).2 (by decide)⟩

/-! ## Express route handlers (`registerRoutes`)

The handlers are embedded from the point where the request body has been
through the express-validator middleware: each takes the outcome of the
zod `parse` call (`Except ZodError _`), the relevant stored tables, and
the effects the database performs (assigned id) or bcrypt performs
(password hash) as explicit parameters.  A handler returns the HTTP
response it sends plus the state after the call.  Timestamp columns
(`createdAt` / `updatedAt`) are omitted from the row models; no claim
concerns them. -/

namespace Routes

/-- The JSON response a handler sends: HTTP status, `message` field and
the `errors` array (empty when the handler sends none). -/
structure HttpResponse where
  status : Nat
  message : String
  errors : List String
  deriving DecidableEq, Repr

/-- A row of the `users` table (timestamps omitted). -/
structure User where
  id : Nat
  username : String
  email : String
  password : String
  fullName : String
  phone : String
  role : String
  isActive : Bool
  deriving DecidableEq, Repr

/-- `DatabaseStorage.getUserByUsername`: first row whose username matches. -/
def getUserByUsername (users : List User) (username : String) : Option User :=
  users.find? (fun u => u.username == username)

/-- `DatabaseStorage.getUserByEmail`: first row whose email matches. -/
def getUserByEmail (users : List User) (email : String) : Option User :=
  users.find? (fun u => u.email == email)

/-- `DatabaseStorage.getUser`: first row whose id matches. -/
def getUser (users : List User) (id : Nat) : Option User :=
  users.find? (fun u => u.id == id)

/-- A zod validation failure (`error.errors` carries the field issues). -/
structure ZodError where
  issues : List String
  deriving DecidableEq, Repr

/-- The body accepted by `registerSchema`
(`insertUserSchema.pick({username, email, password, fullName, phone})`). -/
structure RegisterInput where
  username : String
  email : String
  password : String
  fullName : String
  phone : String
  deriving DecidableEq, Repr

/-- Embedding of the `POST /api/register` handler body: parse the body,
reject duplicate username then duplicate email with 400, otherwise create
the user (id `newId` assigned by the database, password replaced by the
bcrypt hash `hashed`) and answer 201.  A `ZodError` is caught and answered
with 400 and the field errors; the generic catch answers 500 (not
reachable in this model, where the only throwing operation is `parse`). -/
def registerHandler (parsed : Except ZodError RegisterInput)
    (users : List User) (newId : Nat) (hashed : String) :
    HttpResponse × List User :=
  match parsed with
  | .error e =>
    ({ status := 400, message := "Invalid input data", errors := e.issues }, users)
  | .ok input =>
    match getUserByUsername users input.username with
    | some _ =>
      ({ status := 400, message := "Username already exists", errors := [] }, users)
    | none =>
      match getUserByEmail users input.email with
      | some _ =>
        ({ status := 400, message := "Email already exists", errors := [] }, users)
      | none =>
        let u : User :=
          { id := newId, username := input.username, email := input.email
            password := hashed, fullName := input.fullName, phone := input.phone
            role := "user", isActive := true }
        ({ status := 201, message := "User registered successfully", errors := [] },
         users ++ [u])

/-- A row of the `services` table (timestamps and presentation columns
irrelevant to the claims omitted). -/
structure ServiceRec where
  id : Nat
  userId : String
  title : String
  isApproved : Bool
  isFeatured : Bool
  deriving DecidableEq, Repr

/-- `DatabaseStorage.approveService`: update the rows whose id matches,
setting `isApproved` to true. -/
def approveService (services : List ServiceRec) (id : Nat) : List ServiceRec :=
  services.map (fun s => if s.id == id then { s with isApproved := true } else s)

/-- The stored state the approve handler touches. -/
structure AppState where
  users : List User
  services : List ServiceRec
  deriving DecidableEq, Repr

/-- Embedding of the `PATCH /api/services/:id/approve` handler body:
re-fetch the authenticated caller from storage; unless the fetched user's
role is `admin` (`user?.role !== 'admin'`, which also covers a missing
row) answer 403 and change nothing; otherwise run `approveService` and
answer 200 with the updated row. -/
def approveServiceHandler (st : AppState) (callerId serviceId : Nat) :
    HttpResponse × AppState :=
  match getUser st.users callerId with
  | none => ({ status := 403, message := "Admin access required", errors := [] }, st)
  | some u =>
    if u.role != "admin" then
      ({ status := 403, message := "Admin access required", errors := [] }, st)
    else
      ({ status := 200, message := "", errors := [] },
       { st with services := approveService st.services serviceId })

/-- A row of the `categories` table (timestamps omitted). -/
structure Category where
  id : Nat
  name : String
  description : Option String
  isActive : Bool
  deriving DecidableEq, Repr

/-- The body accepted by `insertCategorySchema`. -/
structure CategoryData where
  name : String
  description : Option String
  deriving DecidableEq, Repr

/-- Embedding of the `POST /api/categories` handler body: parse the body
and insert the category.  Its catch block is generic — it does not test
for `ZodError` — so a schema-validation failure is answered with
500 "Failed to create category", like any other error. -/
def createCategoryHandler (parsed : Except ZodError CategoryData)
    (categories : List Category) (newId : Nat) :
    HttpResponse × List Category :=
  match parsed with
  | .error _ =>
    ({ status := 500, message := "Failed to create category", errors := [] }, categories)
  | .ok d =>
    let c : Category :=
      { id := newId, name := d.name, description := d.description, isActive := true }
    ({ status := 200, message := "", errors := [] }, categories ++ [c])

end Routes

/-- C1: a register request whose (schema-valid) body carries the username
of an already-stored user is answered 400 "Username already exists" and
the users table is unchanged — no user is created. -/
theorem C1_register_duplicate_username
    (input : Routes.RegisterInput) (users : List Routes.User)
    (newId : Nat) (hashed : String)
    (hdup : ∃ u ∈ users, u.username = input.username) :
    Routes.registerHandler (.ok input) users newId hashed
      = ({ status := 400, message := "Username already exists", errors := [] }, users) := by
  rw [Routes.registerHandler]
  cases hfind : Routes.getUserByUsername users input.username with
  | some u => rfl
  | none =>
    rw [Routes.getUserByUsername, List.find?_eq_none] at hfind
    obtain ⟨u, hu, hname⟩ := hdup
    exact absurd (by simpa using hname) (hfind u hu)

/-- Witness for C1: registering `ana` again over a store that holds a
user named `ana` answers 400 and leaves the store as it was. -/
theorem C1_register_duplicate_username_witness :
    Routes.registerHandler
      (.ok { username := "ana", email := "new@x.co", password := "Aa1!aaaa",
             fullName := "Ana Dos", phone := "3000000000" })
      [{ id := 1, username := "ana", email := "ana@x.co", password := "h",
         fullName := "Ana", phone := "3111111111", role := "user", isActive := true }]
      2 "h2"
      = ({ status := 400, message := "Username already exists", errors := [] },
         [{ id := 1, username := "ana", email := "ana@x.co", password := "h",
            fullName := "Ana", phone := "3111111111", role := "user", isActive := true }]) :=
  C1_register_duplicate_username
    { username := "ana", email := "new@x.co", password := "Aa1!aaaa",
      fullName := "Ana Dos", phone := "3000000000" }
    [{ id := 1, username := "ana", email := "ana@x.co", password := "h",
       fullName := "Ana", phone := "3111111111", role := "user", isActive := true }]
    2 "h2"
    ⟨_, List.mem_singleton.2 rfl, rfl⟩

/-- C2: a non-admin caller of the approve route gets 403 and the state —
in particular every service's `isApproved` — is unchanged, while an admin
caller gets the targeted service's `isApproved` set to true and every
other service row untouched. -/
theorem C2_approve_service_admin_only :
    (∀ (st : Routes.AppState) (callerId serviceId : Nat) (u : Routes.User),
      Routes.getUser st.users callerId = some u → u.role ≠ "admin" →
      Routes.approveServiceHandler st callerId serviceId
        = ({ status := 403, message := "Admin access required", errors := [] }, st))
    ∧ (∀ (st : Routes.AppState) (callerId serviceId : Nat) (u : Routes.User),
      Routes.getUser st.users callerId = some u → u.role = "admin" →
      (Routes.approveServiceHandler st callerId serviceId).1.status = 200
      ∧ (Routes.approveServiceHandler st callerId serviceId).2.users = st.users
      ∧ List.Forall₂ (fun s s' : Routes.ServiceRec =>
            (s.id = serviceId → s' = { s with isApproved := true })
            ∧ (s.id ≠ serviceId → s' = s))
          st.services (Routes.approveServiceHandler st callerId serviceId).2.services) := by
  constructor
  · intro st callerId serviceId u hu hrole
    simp only [Routes.approveServiceHandler, hu]
    rw [if_pos (by simpa using hrole)]
  · intro st callerId serviceId u hu hrole
    simp only [Routes.approveServiceHandler, hu]
    rw [if_neg (by simp [hrole])]
    refine ⟨rfl, rfl, ?_⟩
    rw [Routes.approveService]
    rw [List.forall₂_map_right_iff]
    rw [List.forall₂_same]
    intro s _hs
    constructor
    · intro hid
      rw [if_pos (by simpa using hid)]
    · intro hid
      rw [if_neg (by simpa using hid)]

/-- Witness for C2: a provider caller is refused with 403 and the
unapproved service stays unapproved; an admin caller gets the service
approved. -/
theorem C2_approve_service_admin_only_witness :
    (Routes.approveServiceHandler
      { users := [{ id := 1, username := "p", email := "p@x", password := "h",
                    fullName := "P", phone := "1", role := "provider", isActive := true }],
        services := [{ id := 9, userId := "1", title := "t",
                       isApproved := false, isFeatured := false }] }
      1 9
      = ({ status := 403, message := "Admin access required", errors := [] },
        { users := [{ id := 1, username := "p", email := "p@x", password := "h",
                      fullName := "P", phone := "1", role := "provider", isActive := true }],
          services := [{ id := 9, userId := "1", title := "t",
                         isApproved := false, isFeatured := false }] }))
    ∧ (Routes.approveServiceHandler
      { users := [{ id := 2, username := "a", email := "a@x", password := "h",
                    fullName := "A", phone := "2", role := "admin", isActive := true }],
        services := [{ id := 9, userId := "1", title := "t",
                       isApproved := false, isFeatured := false }] }
      2 9).1.status = 200 := by
  constructor
  · exact C2_approve_service_admin_only.1
      { users := [{ id := 1, username := "p", email := "p@x", password := "h",
                    fullName := "P", phone := "1", role := "provider", isActive := true }],
        services := [{ id := 9, userId := "1", title := "t",
                       isApproved := false, isFeatured := false }] }
      1 9
      { id := 1, username := "p", email := "p@x", password := "h",
        fullName := "P", phone := "1", role := "provider", isActive := true }
      (by rfl) (by decide)
  · exact (C2_approve_service_admin_only.2
      { users := [{ id := 2, username := "a", email := "a@x", password := "h",
                    fullName := "A", phone := "2", role := "admin", isActive := true }],
        services := [{ id := 9, userId := "1", title := "t",
                       isApproved := false, isFeatured := false }] }
      2 9
      { id := 2, username := "a", email := "a@x", password := "h",
        fullName := "A", phone := "2", role := "admin", isActive := true }
      (by rfl) rfl).1

/-- C3 counterexample: `POST /api/categories` is an API route handler, yet
on a body that fails schema validation it answers 500 "Failed to create
category", not 400 with field errors — its catch block never tests for
`ZodError`. -/
theorem C3_counterexample_categories_500 :
    (Routes.createCategoryHandler (.error { issues := ["name: Required"] }) [] 1).1.status
        = 500
    ∧ (Routes.createCategoryHandler (.error { issues := ["name: Required"] }) [] 1).1.status
        ≠ 400
    ∧ (Routes.createCategoryHandler (.error { issues := ["name: Required"] }) [] 1).2
        = [] := by
  exact ⟨rfl, by decide, rfl⟩

/-- C3 (amended): handlers whose catch block tests for `ZodError` — such
as `POST /api/register` — answer a validation failure with 400 and the
field errors, but handlers with a generic catch — such as
`POST /api/categories` — answer 500 even when the error is a schema
validation failure. -/
theorem C3_validation_error_statuses :
    (∀ (e : Routes.ZodError) (users : List Routes.User) (newId : Nat) (hashed : String),
      Routes.registerHandler (.error e) users newId hashed
        = ({ status := 400, message := "Invalid input data", errors := e.issues }, users))
    ∧ (∀ (e : Routes.ZodError) (categories : List Routes.Category) (newId : Nat),
      Routes.createCategoryHandler (.error e) categories newId
        = ({ status := 500, message := "Failed to create category", errors := [] },
           categories)) :=
  ⟨fun _ _ _ _ => rfl, fun _ _ _ => rfl⟩

/-! ## Support tickets (`storage.ts` + `shared/schema.ts`)

The `support_tickets` schema constrains `status` to
`{open, in_progress, resolved, closed}` with database default `open` and
`insertSupportTicketSchema = createInsertSchema(supportTickets)`, in which
every defaulted column — `status` included — is optional.
`createSupportTicket` inserts the validated payload plus a generated
ticket number; `updateSupportTicket` writes whatever partial payload it is
given, with no inspection of the previous status. -/

namespace Tickets

/-- A row of the `support_tickets` table (timestamps and the optional
category/adminResponse columns omitted). -/
structure SupportTicket where
  id : Nat
  ticketNumber : String
  name : String
  email : String
  subject : String
  message : String
  status : String
  priority : String
  deriving DecidableEq, Repr

/-- The payload accepted by `insertSupportTicketSchema`: defaulted columns
are optional, so the caller may supply `status` and `priority` or omit
them. -/
structure InsertSupportTicket where
  name : String
  email : String
  subject : String
  message : String
  status : Option String
  priority : Option String
  deriving DecidableEq, Repr

/-- The status enum of the `support_tickets` schema. -/
def validStatus (s : String) : Bool :=
  ["open", "in_progress", "resolved", "closed"].contains s

/-- `DatabaseStorage.createSupportTicket`: insert the payload with a
generated ticket number; the database fills defaulted columns that the
payload omits (`status` defaults to `open`, `priority` to `medium`). -/
def createSupportTicket (ins : InsertSupportTicket) (newId : Nat)
    (ticketNumber : String) : SupportTicket :=
  { id := newId
    ticketNumber := ticketNumber
    name := ins.name
    email := ins.email
    subject := ins.subject
    message := ins.message
    status := ins.status.getD "open"
    priority := ins.priority.getD "medium" }

/-- A partial update payload (`Partial<InsertSupportTicket>` restricted to
the columns modelled). -/
structure TicketPatch where
  status : Option String
  priority : Option String
  deriving DecidableEq, Repr

/-- `DatabaseStorage.updateSupportTicket` on one row: `.set({...ticket})`
overwrites exactly the supplied columns; absent columns keep their stored
value.  No transition check is performed. -/
def updateSupportTicket (t : SupportTicket) (patch : TicketPatch) : SupportTicket :=
  { t with
    status := patch.status.getD t.status
    priority := patch.priority.getD t.priority }

/-- Position of a status along the `open → in_progress → resolved/closed`
lifecycle (used to express what a backwards move is). -/
def statusRank : String → Nat
  | "in_progress" => 1
  | "resolved" => 2
  | "closed" => 2
  | _ => 0

end Tickets

/-- C7 counterexample: one `updateSupportTicket` call moves a ticket that
is `in_progress` back to `open` — a strictly backwards move along the
lifecycle — because the update writes the supplied status unconditionally. -/
theorem C7_counterexample_backwards_update :
    (Tickets.updateSupportTicket
      { id := 1, ticketNumber := "ST-1", name := "n", email := "e@x",
        subject := "s", message := "m", status := "in_progress", priority := "medium" }
      { status := some "open", priority := none }).status = "open"
    ∧ Tickets.statusRank
        ((Tickets.updateSupportTicket
          { id := 1, ticketNumber := "ST-1", name := "n", email := "e@x",
            subject := "s", message := "m", status := "in_progress", priority := "medium" }
          { status := some "open", priority := none }).status)
      < Tickets.statusRank "in_progress" := by
  exact ⟨rfl, by decide⟩

/-- C7 (amended): a ticket created without an explicit status starts as
`open`, but `updateSupportTicket` writes exactly the status supplied in
the patch, with no transition restriction — so the status can move
backwards along the `open → in_progress → resolved/closed` lifecycle, and
only values outside that enum are excluded (by schema validation, not by
the update). -/
theorem C7_ticket_status_unrestricted :
    (∀ (ins : Tickets.InsertSupportTicket) (newId : Nat) (tn : String),
      ins.status = none → (Tickets.createSupportTicket ins newId tn).status = "open")
    ∧ (∀ (t : Tickets.SupportTicket) (patch : Tickets.TicketPatch) (s : String),
      patch.status = some s → (Tickets.updateSupportTicket t patch).status = s) := by
  constructor
  · intro ins newId tn h
    rw [Tickets.createSupportTicket]
    rw [h]
    rfl
  · intro t patch s h
    rw [Tickets.updateSupportTicket]
    rw [h]
    rfl

/-- Witness for the amended C7: a ticket created with no explicit status
is `open`, and a patch carrying `closed` makes the status `closed`. -/
theorem C7_ticket_status_unrestricted_witness :
    (Tickets.createSupportTicket
      { name := "n", email := "e@x", subject := "s", message := "m",
        status := none, priority := none } 1 "ST-1").status = "open"
    ∧ (Tickets.updateSupportTicket
      { id := 1, ticketNumber := "ST-1", name := "n", email := "e@x",
        subject := "s", message := "m", status := "open", priority := "medium" }
      { status := some "closed", priority := none }).status = "closed" :=
  ⟨C7_ticket_status_unrestricted.1
      { name := "n", email := "e@x", subject := "s", message := "m",
        status := none, priority := none } 1 "ST-1" rfl,
   C7_ticket_status_unrestricted.2
      { id := 1, ticketNumber := "ST-1", name := "n", email := "e@x",
        subject := "s", message := "m", status := "open", priority := "medium" }
      { status := some "closed", priority := none } "closed" rfl⟩

/-! ## The WebSocket connection registry (`WebSocketManager`)

The manager keeps two maps: `connections : Map<connectionId, WebSocket>`
and `userConnections : Map<userId, Set<connectionId>>`.  The socket values
play no role in the registry invariant, so `connections` is embedded as
its key list; `userConnections` as an association list (the JS `Map`
guarantees its keys are distinct, stated as `KeysNodup`).
`handleConnection` registers a freshly generated connection id;
the `close` handler unregisters the id the closed socket was registered
under. -/

namespace WS

/-- The registry state: the key set of the `connections` map and the
`userConnections` association list. -/
structure WSState where
  connections : List String
  userConnections : List (String × List String)
  deriving DecidableEq, Repr

/-- JS `Set.add` (also `Map.set` restricted to the key list): append the
element when absent, no change when present. -/
def addId (k : String) (l : List String) : List String :=
  if l.contains k then l else l ++ [k]

/-- JS `Map.get` on the association list: value of the first (unique)
entry with the given key. -/
def getEntry (m : List (String × List String)) (u : String) :
    Option (List String) :=
  (m.find? (fun e => e.1 == u)).map (fun e => e.2)

/-- JS `Map.set` on a present key: replace the value of the entry. -/
def setEntry (m : List (String × List String)) (u : String) (v : List String) :
    List (String × List String) :=
  m.map (fun e => if e.1 == u then (e.1, v) else e)

/-- JS `Map.delete`: drop the entry with the given key. -/
def delEntry (m : List (String × List String)) (u : String) :
    List (String × List String) :=
  m.filter (fun e => e.1 != u)

/-- Embedding of `handleConnection`: store the connection id, create the
user's (empty) set when the user has none, then add the id to the user's
set. -/
def handleConnection (s : WSState) (u c : String) : WSState :=
  let m0 :=
    match getEntry s.userConnections u with
    | some _ => s.userConnections
    | none => s.userConnections ++ [(u, [])]
  { connections := addId c s.connections
    userConnections := setEntry m0 u (addId c ((getEntry m0 u).getD [])) }

/-- Embedding of the `close` handler: delete the id from `connections`,
delete it from the user's set when that set exists, and drop the user's
entry when its set has become empty. -/
def handleClose (s : WSState) (u c : String) : WSState :=
  let m1 :=
    match getEntry s.userConnections u with
    | some l => setEntry s.userConnections u (l.filter (fun x => x != c))
    | none => s.userConnections
  let m2 :=
    match getEntry m1 u with
    | some l => if l.isEmpty then delEntry m1 u else m1
    | none => m1
  { connections := s.connections.filter (fun x => x != c)
    userConnections := m2 }

/-- The registry invariant of the claim: every id in some user's set is a
registered connection, every registered connection id lies in exactly one
user's set, and no user is mapped to an empty set. -/
def Inv (s : WSState) : Prop :=
  (∀ u l, (u, l) ∈ s.userConnections → ∀ c ∈ l, c ∈ s.connections)
  ∧ (∀ c ∈ s.connections,
      ∃ u l, (u, l) ∈ s.userConnections ∧ c ∈ l
        ∧ ∀ u' l', (u', l') ∈ s.userConnections → c ∈ l' → u' = u)
  ∧ (∀ u l, (u, l) ∈ s.userConnections → l ≠ [])

/-- Well-formedness the JS `Map` provides for free: the association list
has pairwise-distinct keys. -/
def KeysNodup (s : WSState) : Prop :=
  (s.userConnections.map Prod.fst).Nodup

/-- The states the manager can reach: starting from the empty registry,
`handleConnection` fires with a freshly generated id
(`generateConnectionId` is used exactly once per socket) and the `close`
handler fires on a socket that was registered as `(u, c)` — or whose id is
already gone from the registry. -/
inductive Reachable : WSState → Prop
  | init : Reachable { connections := [], userConnections := [] }
  | connect {s : WSState} (u c : String) : Reachable s →
      c ∉ s.connections → Reachable (handleConnection s u c)
  | close {s : WSState} (u c : String) : Reachable s →
      ((∃ l, (u, l) ∈ s.userConnections ∧ c ∈ l) ∨ c ∉ s.connections) →
      Reachable (handleClose s u c)

theorem mem_addId {x k : String} {l : List String} :
    x ∈ addId k l ↔ x = k ∨ x ∈ l := by
  rw [addId]
  by_cases h : l.contains k
  · have hk : k ∈ l := by simpa [List.contains] using h
    rw [if_pos h]
    constructor
    · exact Or.inr
    · rintro (rfl | hx)
      · exact hk
      · exact hx
  · rw [if_neg h]
    simp [or_comm]

theorem getEntry_some_mem {m : List (String × List String)} {u : String}
    {l : List String} (h : getEntry m u = some l) : (u, l) ∈ m := by
  rw [getEntry, Option.map_eq_some'] at h
  obtain ⟨e, he, hval⟩ := h
  have hmem := List.mem_of_find?_eq_some he
  have hkey : e.1 = u := by simpa using List.find?_some he
  cases e
  simp only at hkey hval
  rw [hkey, hval] at hmem
  exact hmem

theorem getEntry_none {m : List (String × List String)} {u : String} :
    getEntry m u = none ↔ u ∉ m.map Prod.fst := by
  rw [getEntry, Option.map_eq_none', List.find?_eq_none]
  constructor
  · intro h hu
    obtain ⟨e, he, hkey⟩ := List.mem_map.1 hu
    exact h e he (by simp [hkey])
  · intro h e he
    intro hbeq
    exact h (List.mem_map.2 ⟨e, he, by simpa using hbeq⟩)

theorem mem_getEntry_some {m : List (String × List String)} {u : String}
    {l : List String} (hnd : (m.map Prod.fst).Nodup) (hm : (u, l) ∈ m) :
    getEntry m u = some l := by
  induction m with
  | nil => cases hm
  | cons e m ih =>
    rw [List.map_cons, List.nodup_cons] at hnd
    rcases List.mem_cons.1 hm with rfl | hm'
    · rw [getEntry, List.find?_cons_of_pos _ (by simp)]
      rfl
    · have hne : e.1 ≠ u := by
        intro h
        exact hnd.1 (h ▸ List.mem_map.2 ⟨(u, l), hm', rfl⟩)
      rw [getEntry, List.find?_cons_of_neg _ (by simpa using hne)]
      exact ih hnd.2 hm'

theorem entry_val_unique {m : List (String × List String)} {u : String}
    {l₁ l₂ : List String} (hnd : (m.map Prod.fst).Nodup)
    (h₁ : (u, l₁) ∈ m) (h₂ : (u, l₂) ∈ m) : l₁ = l₂ := by
  have e₁ := mem_getEntry_some hnd h₁
  have e₂ := mem_getEntry_some hnd h₂
  rw [e₁] at e₂
  exact Option.some.inj e₂

theorem mem_setEntry {m : List (String × List String)} {u : String}
    {v : List String} {a : String} {b : List String} :
    (a, b) ∈ setEntry m u v ↔
      (a = u ∧ b = v ∧ u ∈ m.map Prod.fst) ∨ ((a, b) ∈ m ∧ a ≠ u) := by
  rw [setEntry, List.mem_map]
  constructor
  · rintro ⟨e, he, hfe⟩
    by_cases hk : e.1 = u
    · rw [if_pos (by simpa using hk)] at hfe
      obtain ⟨h1, h2⟩ := Prod.mk.inj hfe
      exact Or.inl ⟨h1 ▸ hk, h2.symm, List.mem_map.2 ⟨e, he, hk⟩⟩
    · rw [if_neg (by simpa using hk)] at hfe
      subst hfe
      exact Or.inr ⟨he, by simpa using hk⟩
  · rintro (⟨rfl, rfl, hu⟩ | ⟨hab, hne⟩)
    · obtain ⟨e, he, hkey⟩ := List.mem_map.1 hu
      exact ⟨e, he, by rw [if_pos (by simpa using hkey), hkey]⟩
    · exact ⟨(a, b), hab, by rw [if_neg (by simpa using hne)]⟩

theorem keys_setEntry (m : List (String × List String)) (u : String)
    (v : List String) :
    (setEntry m u v).map Prod.fst = m.map Prod.fst := by
  rw [setEntry, List.map_map]
  apply List.map_congr_left
  intro e _
  by_cases hk : e.1 = u
  · simp [hk]
  · simp [hk]

theorem mem_delEntry {m : List (String × List String)} {u a : String}
    {b : List String} :
    (a, b) ∈ delEntry m u ↔ (a, b) ∈ m ∧ a ≠ u := by
  rw [delEntry, List.mem_filter]
  simp

theorem getEntry_setEntry_self {m : List (String × List String)} {u : String}
    (v : List String) (hu : u ∈ m.map Prod.fst) :
    getEntry (setEntry m u v) u = some v := by
  induction m with
  | nil => cases hu
  | cons e m ih =>
    by_cases hk : e.1 = u
    · rw [setEntry, List.map_cons, if_pos (by simpa using hk), getEntry,
        List.find?_cons_of_pos _ (by simpa using hk)]
      rfl
    · rw [List.map_cons, List.mem_cons] at hu
      rcases hu with hu | hu
      · exact absurd hu.symm hk
      · rw [setEntry, List.map_cons, if_neg (by simpa using hk), getEntry,
          List.find?_cons_of_neg _ (by simpa using hk)]
        exact ih hu

theorem setEntry_id {m : List (String × List String)} {u : String}
    {lu : List String} (hnd : (m.map Prod.fst).Nodup) (hm : (u, lu) ∈ m) :
    setEntry m u lu = m := by
  have hcongr : ∀ e ∈ m, (if (e.1 == u) = true then (e.1, lu) else e) = id e := by
    intro e he
    by_cases hk : e.1 = u
    · have hue : (u, e.2) ∈ m := by
        rw [← hk]
        exact he
      have hval : e.2 = lu := entry_val_unique hnd hue hm
      rw [if_pos (by simpa using hk), id, ← hval]
    · rw [if_neg (by simpa using hk), id]
  rw [setEntry, List.map_congr_left hcongr, List.map_id]

theorem filter_ne_self {c : String} {l : List String} (h : c ∉ l) :
    l.filter (fun x => x != c) = l := by
  apply List.filter_eq_self.2
  intro x hx
  simp only [bne_iff_ne, ne_eq, decide_eq_true_eq]
  intro hxc
  exact h (hxc ▸ hx)

theorem getEntry_append_of_none {m : List (String × List String)} {u : String}
    (v : List String) (h : getEntry m u = none) :
    getEntry (m ++ [(u, v)]) u = some v := by
  induction m with
  | nil =>
    rw [List.nil_append, getEntry, List.find?_cons_of_pos _ (by simp)]
    rfl
  | cons e m ih =>
    by_cases hk : (e.1 == u) = true
    · rw [getEntry, List.find?_cons, hk] at h
      simp at h
    · have hkf : (e.1 == u) = false := by simpa using hk
      have h' : getEntry m u = none := by
        rw [getEntry, List.find?_cons, hkf] at h
        exact h
      rw [List.cons_append, getEntry, List.find?_cons, hkf]
      exact ih h'

theorem keys_delEntry_sublist (m : List (String × List String)) (u : String) :
    ((delEntry m u).map Prod.fst).Sublist (m.map Prod.fst) :=
  (List.filter_sublist m).map Prod.fst

theorem connect_preserves {s : WSState} (u c : String)
    (hInv : Inv s) (hnd : KeysNodup s) (hc : c ∉ s.connections) :
    Inv (handleConnection s u c) ∧ KeysNodup (handleConnection s u c) := by
  obtain ⟨h1, h2, h3⟩ := hInv
  cases hg : getEntry s.userConnections u with
  | some lu =>
    have hmem : (u, lu) ∈ s.userConnections := getEntry_some_mem hg
    have huk : u ∈ s.userConnections.map Prod.fst :=
      List.mem_map.2 ⟨(u, lu), hmem, rfl⟩
    simp only [handleConnection, hg, Option.getD_some, Inv, KeysNodup]
    refine ⟨⟨?_, ?_, ?_⟩, ?_⟩
    · intro a b hab d hd
      rcases mem_setEntry.1 hab with ⟨rfl, rfl, _⟩ | ⟨hab', _⟩
      · rcases mem_addId.1 hd with rfl | hd'
        · exact mem_addId.2 (Or.inl rfl)
        · exact mem_addId.2 (Or.inr (h1 a lu hmem d hd'))
      · exact mem_addId.2 (Or.inr (h1 a b hab' d hd))
    · intro d hd
      rcases mem_addId.1 hd with rfl | hd'
      · refine ⟨u, addId d lu, mem_setEntry.2 (Or.inl ⟨rfl, rfl, huk⟩),
          mem_addId.2 (Or.inl rfl), ?_⟩
        intro u' l' hl' hdl'
        rcases mem_setEntry.1 hl' with ⟨rfl, _, _⟩ | ⟨hl'', _⟩
        · rfl
        · exact absurd (h1 u' l' hl'' _ hdl') hc
      · obtain ⟨w, lw, hw, hdw, huniq⟩ := h2 d hd'
        by_cases hwu : w = u
        · subst hwu
          have hlw : lw = lu := entry_val_unique hnd hw hmem
          subst hlw
          refine ⟨w, addId c lw, mem_setEntry.2 (Or.inl ⟨rfl, rfl, huk⟩),
            mem_addId.2 (Or.inr hdw), ?_⟩
          intro u' l' hl' hdl'
          rcases mem_setEntry.1 hl' with ⟨rfl, _, _⟩ | ⟨hl'', _⟩
          · rfl
          · exact huniq u' l' hl'' hdl'
        · refine ⟨w, lw, mem_setEntry.2 (Or.inr ⟨hw, hwu⟩), hdw, ?_⟩
          intro u' l' hl' hdl'
          rcases mem_setEntry.1 hl' with ⟨rfl, rfl, _⟩ | ⟨hl'', _⟩
          · rcases mem_addId.1 hdl' with rfl | hdl''
            · exact absurd hd' hc
            · exact absurd (huniq u' lu hmem hdl'').symm hwu
          · exact huniq u' l' hl'' hdl'
    · intro a b hab
      rcases mem_setEntry.1 hab with ⟨rfl, rfl, _⟩ | ⟨hab', _⟩
      · intro hnil
        have hcmem : c ∈ addId c lu := mem_addId.2 (Or.inl rfl)
        rw [hnil] at hcmem
        cases hcmem
      · exact h3 a b hab'
    · rw [keys_setEntry]
      exact hnd
  | none =>
    have hnotk : u ∉ s.userConnections.map Prod.fst := getEntry_none.1 hg
    have hga : getEntry (s.userConnections ++ [(u, [])]) u = some [] :=
      getEntry_append_of_none [] hg
    have haddnil : addId c [] = [c] := rfl
    have huk0 : u ∈ (s.userConnections ++ [(u, [])]).map Prod.fst := by simp
    have hmemK : ∀ {a : String} {b : List String},
        (a, b) ∈ s.userConnections ++ [(u, [])] → a ≠ u →
        (a, b) ∈ s.userConnections := by
      intro a b hab hne
      rcases List.mem_append.1 hab with h | h
      · exact h
      · exact absurd (congrArg Prod.fst (List.mem_singleton.1 h)) hne
    simp only [handleConnection, hg, hga, Option.getD_some, haddnil, Inv, KeysNodup]
    refine ⟨⟨?_, ?_, ?_⟩, ?_⟩
    · intro a b hab d hd
      rcases mem_setEntry.1 hab with ⟨rfl, rfl, _⟩ | ⟨hab', hne⟩
      · rcases List.mem_singleton.1 hd with rfl
        exact mem_addId.2 (Or.inl rfl)
      · exact mem_addId.2 (Or.inr (h1 a b (hmemK hab' hne) d hd))
    · intro d hd
      rcases mem_addId.1 hd with rfl | hd'
      · refine ⟨u, [d], mem_setEntry.2 (Or.inl ⟨rfl, rfl, huk0⟩),
          List.mem_singleton.2 rfl, ?_⟩
        intro u' l' hl' hdl'
        rcases mem_setEntry.1 hl' with ⟨rfl, _, _⟩ | ⟨hl'', hne⟩
        · rfl
        · exact absurd (h1 u' l' (hmemK hl'' hne) _ hdl') hc
      · obtain ⟨w, lw, hw, hdw, huniq⟩ := h2 d hd'
        have hwu : w ≠ u := by
          intro h
          exact hnotk (h ▸ List.mem_map.2 ⟨(w, lw), hw, rfl⟩)
        refine ⟨w, lw,
          mem_setEntry.2 (Or.inr ⟨List.mem_append.2 (Or.inl hw), hwu⟩), hdw, ?_⟩
        intro u' l' hl' hdl'
        rcases mem_setEntry.1 hl' with ⟨rfl, rfl, _⟩ | ⟨hl'', hne⟩
        · rcases List.mem_singleton.1 hdl' with rfl
          exact absurd hd' hc
        · exact huniq u' l' (hmemK hl'' hne) hdl'
    · intro a b hab
      rcases mem_setEntry.1 hab with ⟨rfl, rfl, _⟩ | ⟨hab', hne⟩
      · exact List.cons_ne_nil c []
      · exact h3 a b (hmemK hab' hne)
    · rw [keys_setEntry, List.map_append, List.nodup_append]
      refine ⟨hnd, List.nodup_singleton u, ?_⟩
      intro x hx hxu
      simp only [List.map_cons, List.map_nil, List.mem_singleton] at hxu
      exact hnotk (hxu ▸ hx)

theorem close_preserves {s : WSState} (u c : String)
    (hInv : Inv s) (hnd : KeysNodup s)
    (hok : (∃ l, (u, l) ∈ s.userConnections ∧ c ∈ l) ∨ c ∉ s.connections) :
    Inv (handleClose s u c) ∧ KeysNodup (handleClose s u c) := by
  obtain ⟨h1, h2, h3⟩ := hInv
  rcases hok with ⟨lu, hmem, hclu⟩ | hcnot
  · have hg : getEntry s.userConnections u = some lu := mem_getEntry_some hnd hmem
    have huk : u ∈ s.userConnections.map Prod.fst :=
      List.mem_map.2 ⟨(u, lu), hmem, rfl⟩
    have hge : getEntry (setEntry s.userConnections u (lu.filter (fun x => x != c))) u
        = some (lu.filter (fun x => x != c)) := getEntry_setEntry_self _ huk
    have hcin : c ∈ s.connections := h1 u lu hmem c hclu
    have hconly : ∀ a b, (a, b) ∈ s.userConnections → c ∈ b → a = u := by
      obtain ⟨w, lw, hw, hcw, huniq⟩ := h2 c hcin
      have hwu : u = w := huniq u lu hmem hclu
      intro a b hab hcb
      exact (huniq a b hab hcb).trans hwu.symm
    simp only [handleClose, hg, hge, Inv, KeysNodup]
    by_cases hE : (lu.filter (fun x => x != c)).isEmpty
    · rw [if_pos hE]
      have hluc : ∀ x ∈ lu, x = c := by
        have hnil : lu.filter (fun x => x != c) = [] := by
          cases hfe : lu.filter (fun x => x != c) with
          | nil => rfl
          | cons y ys => rw [hfe] at hE; simp [List.isEmpty] at hE
        intro x hx
        by_contra hxc
        have : x ∈ lu.filter (fun x => x != c) :=
          List.mem_filter.2 ⟨hx, by simpa using hxc⟩
        rw [hnil] at this
        cases this
      have hmemchar : ∀ {a : String} {b : List String},
          (a, b) ∈ delEntry (setEntry s.userConnections u
            (lu.filter (fun x => x != c))) u →
          (a, b) ∈ s.userConnections ∧ a ≠ u := by
        intro a b hab
        obtain ⟨habm, hne⟩ := mem_delEntry.1 hab
        rcases mem_setEntry.1 habm with ⟨ha, _, _⟩ | ⟨habK, _⟩
        · exact absurd ha hne
        · exact ⟨habK, hne⟩
      refine ⟨⟨?_, ?_, ?_⟩, ?_⟩
      · intro a b hab d hd
        obtain ⟨habK, hne⟩ := hmemchar hab
        refine List.mem_filter.2 ⟨h1 a b habK d hd, ?_⟩
        simp only [bne_iff_ne, ne_eq, decide_eq_true_eq]
        intro hdc
        exact hne (hconly a b habK (hdc ▸ hd))
      · intro d hd
        obtain ⟨hdcon, hdc⟩ := List.mem_filter.1 hd
        have hdc' : d ≠ c := by simpa using hdc
        obtain ⟨w, lw, hw, hdw, huniq⟩ := h2 d hdcon
        have hwu : w ≠ u := by
          intro h
          subst h
          have hlw : lw = lu := entry_val_unique hnd hw hmem
          exact hdc' (hluc d (hlw ▸ hdw))
        refine ⟨w, lw,
          mem_delEntry.2 ⟨mem_setEntry.2 (Or.inr ⟨hw, hwu⟩), hwu⟩, hdw, ?_⟩
        intro u' l' hl' hdl'
        exact huniq u' l' (hmemchar hl').1 hdl'
      · intro a b hab
        exact h3 a b (hmemchar hab).1
      · refine List.Nodup.sublist (keys_delEntry_sublist _ u) ?_
        rw [keys_setEntry]
        exact hnd
    · rw [if_neg hE]
      have hlune : lu.filter (fun x => x != c) ≠ [] := by
        intro h
        rw [h] at hE
        exact hE rfl
      refine ⟨⟨?_, ?_, ?_⟩, ?_⟩
      · intro a b hab d hd
        rcases mem_setEntry.1 hab with ⟨rfl, rfl, _⟩ | ⟨habK, hne⟩
        · obtain ⟨hdlu, hdc⟩ := List.mem_filter.1 hd
          exact List.mem_filter.2 ⟨h1 a lu hmem d hdlu, hdc⟩
        · refine List.mem_filter.2 ⟨h1 a b habK d hd, ?_⟩
          simp only [bne_iff_ne, ne_eq, decide_eq_true_eq]
          intro hdc
          exact hne (hconly a b habK (hdc ▸ hd))
      · intro d hd
        obtain ⟨hdcon, hdc⟩ := List.mem_filter.1 hd
        obtain ⟨w, lw, hw, hdw, huniq⟩ := h2 d hdcon
        by_cases hwu : w = u
        · subst hwu
          have hlw : lw = lu := entry_val_unique hnd hw hmem
          subst hlw
          refine ⟨w, lw.filter (fun x => x != c),
            mem_setEntry.2 (Or.inl ⟨rfl, rfl, huk⟩),
            List.mem_filter.2 ⟨hdw, hdc⟩, ?_⟩
          intro u' l' hl' hdl'
          rcases mem_setEntry.1 hl' with ⟨rfl, _, _⟩ | ⟨hl'K, _⟩
          · rfl
          · exact huniq u' l' hl'K hdl'
        · refine ⟨w, lw, mem_setEntry.2 (Or.inr ⟨hw, hwu⟩), hdw, ?_⟩
          intro u' l' hl' hdl'
          rcases mem_setEntry.1 hl' with ⟨rfl, rfl, _⟩ | ⟨hl'K, _⟩
          · exact huniq u' lu hmem (List.mem_filter.1 hdl').1
          · exact huniq u' l' hl'K hdl'
      · intro a b hab
        rcases mem_setEntry.1 hab with ⟨rfl, rfl, _⟩ | ⟨habK, _⟩
        · exact hlune
        · exact h3 a b habK
      · rw [keys_setEntry]
        exact hnd
  · have hcfilter : s.connections.filter (fun x => x != c) = s.connections :=
      filter_ne_self hcnot
    cases hg : getEntry s.userConnections u with
    | none =>
      have hstate : handleClose s u c = s := by
        simp only [handleClose, hg, hcfilter]
      rw [hstate]
      exact ⟨⟨h1, h2, h3⟩, hnd⟩
    | some lu =>
      have hmem : (u, lu) ∈ s.userConnections := getEntry_some_mem hg
      have hclu : c ∉ lu := fun hc' => hcnot (h1 u lu hmem c hc')
      have hfilter : lu.filter (fun x => x != c) = lu := filter_ne_self hclu
      have hset : setEntry s.userConnections u lu = s.userConnections :=
        setEntry_id hnd hmem
      have hlune : lu.isEmpty = false := by
        cases lu with
        | nil => exact absurd rfl (h3 u [] hmem)
        | cons x xs => rfl
      have hstate : handleClose s u c = s := by
        simp only [handleClose, hg, hfilter, hset, hlune, hcfilter,
          Bool.false_eq_true, if_false]
      rw [hstate]
      exact ⟨⟨h1, h2, h3⟩, hnd⟩

end WS

/-- C6: after every connection and disconnection event — starting from the
empty registry, registering each socket under a freshly generated
connection id, and closing sockets under the user/connection pair they
were registered with — the registry satisfies the invariant: every
connection id in some user's set is a key of the connections map, every
key of the connections map lies in exactly one user's set, and no user is
mapped to an empty set. -/
theorem C6_registry_invariant (s : WS.WSState) (h : WS.Reachable s) :
    WS.Inv s := by
  have hfull : WS.Inv s ∧ WS.KeysNodup s := by
    induction h with
    | init =>
      refine ⟨⟨?_, ?_, ?_⟩, ?_⟩
      · intro u l h
        cases h
      · intro c hc
        cases hc
      · intro u l h
        cases h
      · exact List.nodup_nil
    | connect u c hr hc ih => exact WS.connect_preserves u c ih.1 ih.2 hc
    | close u c hr hok ih => exact WS.close_preserves u c ih.1 ih.2 hok
  exact hfull.1

/-- Witness for C6: the state after one connection event on the empty
registry is reachable, so the theorem yields its invariant. -/
theorem C6_registry_invariant_witness :
    WS.Inv (WS.handleConnection
      { connections := [], userConnections := [] } "u1" "c1") :=
  C6_registry_invariant _
    (WS.Reachable.connect "u1" "c1" WS.Reachable.init (List.not_mem_nil "c1"))

end ServiLocal
